import Mathlib

/-!
Verification of the modal command-dispatch engine and region-selection
geometry of the vip pixel-art editor.

The selection geometry (`VisualType.select_pixels`) and every handler
registered in `create_ui` are translated directly from `src/main.rs`.
The `ui` module (modal dispatcher, key model, binding table) is not part
of the provided sources; those parts are modelled from the specification
(sections 3, 4.1, 4.3, 4.5) and are marked `Modelled from the spec:` in
their doc comments.
-/

/-- The four editing modes of the engine (spec section 3). -/
inductive Mode where
  | Normal
  | Insertion
  | Visual
  | Command
deriving DecidableEq, Repr

/-- Modelled from the spec: modifier flags of a key token (Shift/Control/Alt). -/
structure Mods where
  shift : Bool
  ctrl : Bool
  alt : Bool
deriving DecidableEq, Repr

/-- Modelled from the spec: the base of a key token, a character or a named key. -/
inductive BaseKey where
  | ch : Char → BaseKey
  | esc
  | enter
  | left
  | right
  | up
  | down
deriving DecidableEq, Repr

/-- Modelled from the spec: a key token (`CharKeyMod` in the `keyboard` module),
a character or named key plus a modifier set. -/
structure Key where
  base : BaseKey
  mods : Mods
deriving DecidableEq, Repr

def noMods : Mods := ⟨false, false, false⟩

/-- A plain character key. -/
def chK (c : Char) : Key := ⟨BaseKey.ch c, noMods⟩

/-- A shifted character key (for the `<S-+>` zoom verb). -/
def shK (c : Char) : Key := ⟨BaseKey.ch c, ⟨true, false, false⟩⟩

def escK : Key := ⟨BaseKey.esc, noMods⟩

def enterK : Key := ⟨BaseKey.enter, noMods⟩

def leftK : Key := ⟨BaseKey.left, noMods⟩

def rightK : Key := ⟨BaseKey.right, noMods⟩

def upK : Key := ⟨BaseKey.up, noMods⟩

def downK : Key := ⟨BaseKey.down, noMods⟩

/-- The two region policies (`enum VisualType` in src/main.rs). -/
inductive VisualType where
  | Square
  | Circle
deriving DecidableEq, Repr

/-- Source: the `VisualType::Circle` arm of `select_pixels` (src/main.rs:64-81).
`mx`/`my` are the integer-division midpoints, computed as `isize` in the source
and as `ℤ` here.  The source computes `w = (x2 - x1) as f32 / 2.0` and
`dd = (dx*dx + dy*dy) as f32` and tests `(dd - w*w).abs() <= 2.0`; the `f32`
arithmetic is modelled exactly over `ℚ` (the quantities involved are integers
and integer halves, exactly representable in `f32` throughout the canvas range). -/
def circleCond (x1 y1 x2 y2 x y : ℕ) : Bool :=
  let mx : ℤ := ((x1 + x2) / 2 : ℕ)
  let my : ℤ := ((y1 + y2) / 2 : ℕ)
  let w : ℚ := ((x2 - x1 : ℕ) : ℚ) / 2
  let dx : ℤ := mx - (x : ℤ)
  let dy : ℤ := my - (y : ℤ)
  let dd : ℚ := ((dx * dx + dy * dy : ℤ) : ℚ)
  decide (|dd - w * w| ≤ 2)

/-- Source: `VisualType::select_pixels` (src/main.rs:52-83).  The source
iterates `x1..x2+1` crossed with `y1..y2+1` (equal to the closed ranges
`[x1,x2] × [y1,y2]`) and calls `set_bit` on each selected coordinate; the
function is modelled as returning the set of coordinates passed to `set_bit`. -/
def VisualType.select_pixels (vt : VisualType) (p1 p2 : ℕ × ℕ) : Finset (ℕ × ℕ) :=
  match vt, p1, p2 with
  | VisualType.Square, (x1, y1), (x2, y2) =>
      Finset.Icc x1 x2 ×ˢ Finset.Icc y1 y2
  | VisualType.Circle, (x1, y1), (x2, y2) =>
      (Finset.Icc x1 x2 ×ˢ Finset.Icc y1 y2).filter fun p =>
        circleCond x1 y1 x2 y2 p.1 p.2

/-- The circle test agrees with the specification formula: squared Euclidean
distance to the integer-division center within 2 of `r²`, `r = (x2-x1)/2` real. -/
theorem circleCond_iff (x1 y1 x2 y2 x y : ℕ) (hx : x1 ≤ x2) :
    circleCond x1 y1 x2 y2 x y = true ↔
      |(((x : ℚ) - (((x1 + x2) / 2 : ℕ) : ℚ)) ^ 2 +
        ((y : ℚ) - (((y1 + y2) / 2 : ℕ) : ℚ)) ^ 2) -
        (((x2 : ℚ) - (x1 : ℚ)) / 2) ^ 2| ≤ 2 := by
  simp only [circleCond, decide_eq_true_eq]
  have hsub : ((x2 - x1 : ℕ) : ℚ) = (x2 : ℚ) - (x1 : ℚ) := Nat.cast_sub hx
  rw [hsub]
  generalize (x1 + x2) / 2 = mx
  generalize (y1 + y2) / 2 = my
  constructor <;> intro h <;> (refine le_trans (le_of_eq ?_) h; push_cast; ring_nf)

/-- C1: For normalized corners, Circle selection yields exactly the bounding
rectangle coordinates whose squared Euclidean distance to the integer-division
center lies within 2 of `r²` with `r = (x2-x1)/2` real; for a degenerate
rectangle the single center point is included. -/
theorem circle_selection_spec (x1 y1 x2 y2 x y : ℕ) (hx : x1 ≤ x2) (hy : y1 ≤ y2) :
    ((x, y) ∈ VisualType.Circle.select_pixels (x1, y1) (x2, y2) ↔
      (x1 ≤ x ∧ x ≤ x2 ∧ y1 ≤ y ∧ y ≤ y2 ∧
        |(((x : ℚ) - (((x1 + x2) / 2 : ℕ) : ℚ)) ^ 2 +
          ((y : ℚ) - (((y1 + y2) / 2 : ℕ) : ℚ)) ^ 2) -
          (((x2 : ℚ) - (x1 : ℚ)) / 2) ^ 2| ≤ 2)) ∧
    (x1, y1) ∈ VisualType.Circle.select_pixels (x1, y1) (x1, y1) := by
  constructor
  · rw [show VisualType.Circle.select_pixels (x1, y1) (x2, y2) =
        (Finset.Icc x1 x2 ×ˢ Finset.Icc y1 y2).filter
          (fun p => circleCond x1 y1 x2 y2 p.1 p.2) from rfl]
    rw [Finset.mem_filter, Finset.mem_product, Finset.mem_Icc, Finset.mem_Icc]
    rw [circleCond_iff x1 y1 x2 y2 x y hx]
    tauto
  · rw [show VisualType.Circle.select_pixels (x1, y1) (x1, y1) =
        (Finset.Icc x1 x1 ×ˢ Finset.Icc y1 y1).filter
          (fun p => circleCond x1 y1 x1 y1 p.1 p.2) from rfl]
    rw [Finset.mem_filter]
    refine ⟨by simp, ?_⟩
    rw [circleCond_iff x1 y1 x1 y1 x1 y1 le_rfl]
    have h2 : (x1 + x1) / 2 = x1 := by omega
    have h2y : (y1 + y1) / 2 = y1 := by omega
    rw [h2, h2y]
    norm_num

/-- Closed witness for `circle_selection_spec` at corners (0,0)-(4,4), point (2,2). -/
theorem circle_selection_spec_witness :
    0 ≤ 4 ∧ 0 ≤ 4 ∧
    (((2, 2) ∈ VisualType.Circle.select_pixels (0, 0) (4, 4) ↔
      (0 ≤ 2 ∧ 2 ≤ 4 ∧ 0 ≤ 2 ∧ 2 ≤ 4 ∧
        |((((2 : ℕ) : ℚ) - ((((0 + 4) / 2 : ℕ)) : ℚ)) ^ 2 +
          (((2 : ℕ) : ℚ) - ((((0 + 4) / 2 : ℕ)) : ℚ)) ^ 2) -
          ((((4 : ℕ) : ℚ) - (((0 : ℕ)) : ℚ)) / 2) ^ 2| ≤ 2)) ∧
    ((0 : ℕ), (0 : ℕ)) ∈ VisualType.Circle.select_pixels (0, 0) (0, 0)) :=
  ⟨by decide, by decide,
    circle_selection_spec 0 0 4 4 2 2 (by decide) (by decide)⟩

/-- C2: For normalized corners, Square selection yields exactly the closed
rectangle `[x1,x2] × [y1,y2]`; in particular (2,2)-(2,2) gives the single point
and (1,1)-(3,3) gives all nine points. -/
theorem square_selection_spec (x1 y1 x2 y2 x y : ℕ) (hx : x1 ≤ x2) (hy : y1 ≤ y2) :
    ((x, y) ∈ VisualType.Square.select_pixels (x1, y1) (x2, y2) ↔
      (x1 ≤ x ∧ x ≤ x2 ∧ y1 ≤ y ∧ y ≤ y2)) ∧
    VisualType.Square.select_pixels (2, 2) (2, 2) = {(2, 2)} ∧
    VisualType.Square.select_pixels (1, 1) (3, 3) =
      {(1, 1), (1, 2), (1, 3), (2, 1), (2, 2), (2, 3), (3, 1), (3, 2), (3, 3)} := by
  refine ⟨?_, by decide, by decide⟩
  rw [show VisualType.Square.select_pixels (x1, y1) (x2, y2) =
      Finset.Icc x1 x2 ×ˢ Finset.Icc y1 y2 from rfl]
  rw [Finset.mem_product, Finset.mem_Icc, Finset.mem_Icc]
  tauto

/-- Closed witness for `square_selection_spec` at corners (1,1)-(3,3), point (2,3). -/
theorem square_selection_spec_witness :
    1 ≤ 3 ∧ 1 ≤ 3 ∧
    (((2, 3) ∈ VisualType.Square.select_pixels (1, 1) (3, 3) ↔
      (1 ≤ 2 ∧ 2 ≤ 3 ∧ 1 ≤ 3 ∧ 3 ≤ 3)) ∧
    VisualType.Square.select_pixels (2, 2) (2, 2) = {(2, 2)} ∧
    VisualType.Square.select_pixels (1, 1) (3, 3) =
      {(1, 1), (1, 2), (1, 3), (2, 1), (2, 2), (2, 3), (3, 1), (3, 2), (3, 3)}) :=
  ⟨by decide, by decide, square_selection_spec 1 1 3 3 2 3 (by decide) (by decide)⟩

/-- C10: For normalized corners, the Circle ring is a subset of the Square
rectangle, and neither policy ever selects a coordinate outside the closed
bounding rectangle. -/
theorem circle_subset_square (x1 y1 x2 y2 : ℕ) (hx : x1 ≤ x2) (hy : y1 ≤ y2) :
    VisualType.Circle.select_pixels (x1, y1) (x2, y2) ⊆
      VisualType.Square.select_pixels (x1, y1) (x2, y2) ∧
    ∀ vt : VisualType, ∀ p ∈ vt.select_pixels (x1, y1) (x2, y2),
      x1 ≤ p.1 ∧ p.1 ≤ x2 ∧ y1 ≤ p.2 ∧ p.2 ≤ y2 := by
  constructor
  · exact Finset.filter_subset _ _
  · intro vt p hp
    have hp' : p ∈ Finset.Icc x1 x2 ×ˢ Finset.Icc y1 y2 := by
      cases vt
      · exact hp
      · exact Finset.filter_subset _ _ hp
    rw [Finset.mem_product, Finset.mem_Icc, Finset.mem_Icc] at hp'
    tauto

/-- Closed witness for `circle_subset_square` at corners (0,0)-(4,4). -/
theorem circle_subset_square_witness :
    0 ≤ 4 ∧ 0 ≤ 4 ∧
    (VisualType.Circle.select_pixels (0, 0) (4, 4) ⊆
      VisualType.Square.select_pixels (0, 0) (4, 4) ∧
    ∀ vt : VisualType, ∀ p ∈ vt.select_pixels (0, 0) (4, 4),
      0 ≤ p.1 ∧ p.1 ≤ 4 ∧ 0 ≤ p.2 ∧ p.2 ≤ 4) :=
  ⟨by decide, by decide, circle_subset_square 0 0 4 4 (by decide) (by decide)⟩

/-- A color, an `(r, g, b)` byte triple in the source. -/
abbrev Color := ℕ × ℕ × ℕ

/-- The pixel canvas (`Canvas` in the `canvas` module, consumed through
`set_pixel_color` and `size` only).  The grid contents are modelled as a
function from coordinates to colors. -/
structure Canvas where
  w : ℕ
  h : ℕ
  pix : ℕ × ℕ → Color

/-- Source: `canvas.set_pixel_color(x, y, color)` updates one pixel. -/
def Canvas.set_pixel_color (c : Canvas) (x y : ℕ) (col : Color) : Canvas :=
  { c with pix := fun p => if p = (x, y) then col else c.pix p }

/-- Source: `canvas.size()` returns the dimensions. -/
def Canvas.size (c : Canvas) : ℕ × ℕ := (c.w, c.h)

/-- The externally owned application state (`struct UiState` in src/main.rs).
The `f32` fields are modelled over `ℚ`. -/
structure UiState where
  palette : List (Key × Color)
  must_resize : Bool
  scale : ℚ × ℚ
  zoom : ℚ
  center : ℚ × ℚ
  canvas : Canvas
  visual_type : VisualType
  window_size : ℚ × ℚ
  selection : Finset (ℕ × ℕ)

/-- Source: `palette.get(&c)` (HashMap lookup, modelled on an association list). -/
def paletteGet (pal : List (Key × Color)) (c : Key) : Option Color :=
  (pal.find? fun e => e.1 = c).map (·.2)

/-- Modelled from the spec: recognized bracketed key names of the Key Token
Model (section 4.1; the `keyboard` module is not in the provided sources). -/
def namedKey : String → Option BaseKey
  | "Esc" => some BaseKey.esc
  | "Enter" => some BaseKey.enter
  | "Left" => some BaseKey.left
  | "Right" => some BaseKey.right
  | "Up" => some BaseKey.up
  | "Down" => some BaseKey.down
  | _ => none

/-- Modelled from the spec: decode the contents of one `<...>` bracket, an
optional chain of modifier prefixes (`S-`, `C-`, `A-`) followed by a named key
or a single character (section 4.1). -/
def parseBracket : List Char → Option Key
  | 'S' :: '-' :: rest =>
      (parseBracket rest).map fun key => { key with mods := { key.mods with shift := true } }
  | 'C' :: '-' :: rest =>
      (parseBracket rest).map fun key => { key with mods := { key.mods with ctrl := true } }
  | 'A' :: '-' :: rest =>
      (parseBracket rest).map fun key => { key with mods := { key.mods with alt := true } }
  | cs =>
      match namedKey (String.mk cs) with
      | some b => some ⟨b, noMods⟩
      | none =>
          match cs with
          | [c] => some ⟨BaseKey.ch c, noMods⟩
          | _ => none

/-- Modelled from the spec: the worker of `parse(text)` (section 4.1).  The
third argument is `some acc` while scanning the inside of a `<...>` bracket;
the fuel argument makes the recursion structural (one unit per character). -/
def parseKeysF : ℕ → List Char → Option (List Char) → Option (List Key)
  | 0, _, _ => none
  | _ + 1, [], none => some []
  | _ + 1, [], some _ => none
  | f + 1, c :: rest, none =>
      if c = '<' then parseKeysF f rest (some [])
      else (parseKeysF f rest none).map fun ks => ⟨BaseKey.ch c, noMods⟩ :: ks
  | f + 1, c :: rest, some acc =>
      if c = '>' then
        match parseBracket acc with
        | none => none
        | some key => (parseKeysF f rest none).map fun ks => key :: ks
      else parseKeysF f rest (some (acc ++ [c]))

/-- Modelled from the spec: `parse(text)` of the Key Token Model (section 4.1).
Bare characters represent themselves; `<` opens a bracketed name.  Returns
`none` on a malformed token (unterminated bracket or unrecognized name). -/
def parseKeys (l : List Char) : Option (List Key) :=
  parseKeysF (l.length + 1) l none

/-- The per-mode key binding table (spec section 4.3): each entry maps a
`(mode, trigger sequence)` pair to an expansion sequence; the most recent
registration is consulted first (last write wins). -/
abbrev Bindings := List ((Mode × List Key) × List Key)

/-- Modelled from the spec: `bind(mode, trigger, expansion)` registration
(section 4.3); the trigger and expansion texts are parsed by the Key Token
Model and a malformed text fails the registration. -/
def bind_key (bs : Bindings) (trigger : String) (m : Mode) (expansion : String) :
    Option Bindings :=
  match parseKeys trigger.toList, parseKeys expansion.toList with
  | some ts, some es => some (((m, ts), es) :: bs)
  | _, _ => none

/-- Modelled from the spec: `resolve(mode, trigger)` exact lookup of a single
buffered token (section 4.3; every binding registered by this program has a
one-token trigger). -/
def resolveB (bs : Bindings) (m : Mode) (t : Key) : Option (List Key) :=
  (bs.find? fun b => b.1 = (m, [t])).map (·.2)

/-- The binding table built by `create_ui` (src/main.rs:202-205): the four
arrow keys are remapped in Insertion mode to `<Esc>` + motion + `i`. -/
def vipBindings : Bindings :=
  [((Mode.Insertion, [upK]), [escK, chK 'k', chK 'i']),
   ((Mode.Insertion, [downK]), [escK, chK 'j', chK 'i']),
   ((Mode.Insertion, [rightK]), [escK, chK 'l', chK 'i']),
   ((Mode.Insertion, [leftK]), [escK, chK 'h', chK 'i'])]

/-- Sanity check: the literal `bind_key` calls of `create_ui` produce exactly
`vipBindings`. -/
theorem vipBindings_setup :
    (do
      let b1 ← bind_key [] "<Left>" Mode.Insertion "<Esc>hi"
      let b2 ← bind_key b1 "<Right>" Mode.Insertion "<Esc>li"
      let b3 ← bind_key b2 "<Down>" Mode.Insertion "<Esc>ji"
      let b4 ← bind_key b3 "<Up>" Mode.Insertion "<Esc>ki"
      some b4) = some vipBindings := by decide

/-- Modelled from the spec: the modal dispatcher engine state (sections 3 and
4.5; the `ui` module is not in the provided sources).  It owns the mode, the
cursor, the Visual-mode selection anchor, the Command-mode text buffer, the
pending-verb slot, the close request flag and the key binding table. -/
structure Ui where
  mode : Mode
  cursor : ℕ × ℕ
  anchor : Option (ℕ × ℕ)
  buffer : String
  pending : Option Key
  closed : Bool
  bindings : Bindings
deriving DecidableEq

/-- Modelled from the spec: `set_mode` (section 4.5 step 5).  Entering Visual
mode sets the selection anchor to the current cursor; entering any other mode
clears the anchor (it exists only while mode = Visual). -/
def Ui.set_mode (u : Ui) (m : Mode) : Ui :=
  if m = Mode.Visual then { u with mode := m, anchor := some u.cursor }
  else { u with mode := m, anchor := none }

def Ui.get_mode (u : Ui) : Mode := u.mode

/-- Modelled from the spec: the anchor/cursor pair normalized into rectangle
corners with componentwise min/max (section 3, SelectionAnchor). -/
def Ui.get_selection (u : Ui) : (ℕ × ℕ) × (ℕ × ℕ) :=
  let a := u.anchor.getD u.cursor
  ((min a.1 u.cursor.1, min a.2 u.cursor.2), (max a.1 u.cursor.1, max a.2 u.cursor.2))

/-- Modelled from the spec: one coordinate of the toroidal cursor displacement
(section 3, Cursor: movement wraps modulo the canvas dimension, not clamping). -/
def wrapCoord (a : ℕ) (d : ℤ) (w : ℕ) : ℕ :=
  ((((a : ℤ) + d) % (w : ℤ)) : ℤ).toNat

/-- Modelled from the spec: `ui.wrapping_displace(dx, dy, w, h)` moves the
cursor by `(dx, dy)` wrapping modulo `(w, h)`. -/
def Ui.wrapping_displace (u : Ui) (dx dy : ℤ) (w h : ℕ) : Ui :=
  { u with cursor := (wrapCoord u.cursor.1 dx w, wrapCoord u.cursor.2 dy h) }

/-- Modelled from the spec: `ui.close()` issues the close request (section 4.5,
observable as `input()` returning false on the next call). -/
def Ui.close (u : Ui) : Ui := { u with closed := true }

/-- The ordered traversal set an object reports (spec section 3,
ObjectHandler; a `HashSet` insertion in the source, modelled as an ordered
duplicate-free list). -/
abbrev Positions := List (ℕ × ℕ)

/-- Source: `positions.insert(...)` set insertion. -/
def insertPos (p : ℕ × ℕ) (ps : Positions) : Positions :=
  if p ∈ ps then ps else ps ++ [p]

/-- An object handler: mutates engine and state, extends the traversal set. -/
abbrev ObjHandler := Ui → UiState → Positions → Ui × UiState × Positions

/-- A verb handler: receives the traversal set when one is pending.  A `none`
result models a Rust panic inside the handler. -/
abbrev VerbHandler := Ui → UiState → Option Positions → Option (Ui × UiState)

/-- A command handler: receives the tokenized argument list.  A `none` result
models a Rust panic inside the handler. -/
abbrev CmdHandler := Ui → UiState → List String → Option (Ui × UiState)

/-- Source: the edit callback installed by `Ui::new` (src/main.rs:88-99).  If
the key has a palette entry, paint the cursor pixel when the selection is
empty, otherwise paint every selected coordinate.  The source iterates the
`HashSet` in arbitrary order; since all writes store the same color the result
is order-independent and equals this pointwise override. -/
def editCallback (ui : Ui) (s : UiState) (c : Key) : UiState :=
  match paletteGet s.palette c with
  | none => s
  | some color =>
      if s.selection = ∅ then
        { s with canvas := s.canvas.set_pixel_color ui.cursor.1 ui.cursor.2 color }
      else
        { s with canvas :=
            { s.canvas with pix := fun p => if p ∈ s.selection then color else s.canvas.pix p } }

/-- Source: the `hjkl.` object handlers (src/main.rs:117-128): record the
cursor, displace it wrapping modulo the canvas size, record it again. -/
def motionObject (dx dy : ℤ) : ObjHandler := fun ui s positions =>
  let positions := insertPos ui.cursor positions
  let wh := s.canvas.size
  let ui := ui.wrapping_displace dx dy wh.1 wh.2
  let positions := insertPos ui.cursor positions
  (ui, s, positions)

/-- Source: the `"s"` verb (src/main.rs:131-136): `positions.unwrap()` (a panic
when no traversal set was supplied, modelled as `none`), then paint every
traversed coordinate white. -/
def sVerb : VerbHandler := fun ui s positions =>
  match positions with
  | none => none
  | some ps =>
      let canvas := ps.foldl (fun c q => c.set_pixel_color q.1 q.2 (255, 255, 255)) s.canvas
      some (ui, { s with canvas := canvas })

/-- Source: the `"<S-+>"` zoom-in verb (src/main.rs:139-141). -/
def zoomInVerb : VerbHandler := fun ui s _ =>
  some (ui, { s with zoom := s.zoom + 1 / 10 })

/-- Source: the `"-"` zoom-out verb (src/main.rs:144-146). -/
def zoomOutVerb : VerbHandler := fun ui s _ =>
  some (ui, { s with zoom := s.zoom - 1 / 10 })

/-- Source: the `":"` verb (src/main.rs:149-151): enter Command mode. -/
def colonVerb : VerbHandler := fun ui s _ =>
  some (ui.set_mode Mode.Command, s)

/-- Source: the `"i"` verb (src/main.rs:154-161): when leaving Visual mode,
clear the free-form selection and refill it through the selection geometry for
the anchor/cursor rectangle, then enter Insertion mode. -/
def iVerb : VerbHandler := fun ui s _ =>
  let s :=
    if ui.get_mode = Mode.Visual then
      let ab := ui.get_selection
      { s with selection := s.visual_type.select_pixels ab.1 ab.2 }
    else s
  some (ui.set_mode Mode.Insertion, s)

/-- Source: the `"v"` verb (src/main.rs:164-167): Square Visual mode. -/
def vVerb : VerbHandler := fun ui s _ =>
  some (ui.set_mode Mode.Visual, { s with visual_type := VisualType.Square })

/-- Source: the `"V"` verb (src/main.rs:170-173): Circle Visual mode. -/
def capVVerb : VerbHandler := fun ui s _ =>
  some (ui.set_mode Mode.Visual, { s with visual_type := VisualType.Circle })

/-- Source: the `"H"`/`"J"`/`"K"`/`"L"` pan verbs (src/main.rs:176-187). -/
def panVerb (dx dy : ℚ) : VerbHandler := fun ui s _ =>
  some (ui, { s with center := (s.center.1 + dx, s.center.2 + dy) })

/-- Source: the `"_"` empty action verb (src/main.rs:199); it requires a
traversal set but ignores it. -/
def underscoreVerb : VerbHandler := fun ui s _ => some (ui, s)

/-- Source: the `"<Esc>"` verb (src/main.rs:212-214): clear the free-form
selection. -/
def escVerb : VerbHandler := fun ui s _ =>
  some (ui, { s with selection := ∅ })

/-- Source: the `"q"`/`"quit"` commands (src/main.rs:190-196). -/
def quitCommand : CmdHandler := fun ui s _ => some (ui.close, s)

/-- Source: the `"imap"` command (src/main.rs:208-210): `args[0]` / `args[1]`
are unchecked slice indexings — a panic (modelled as `none`) when fewer than
two arguments are supplied. -/
def imapCommand : CmdHandler := fun ui s args =>
  match args.get? 0, args.get? 1 with
  | some a0, some a1 =>
      match bind_key ui.bindings a0 Mode.Insertion a1 with
      | some bs => some ({ ui with bindings := bs }, s)
      | none => none
  | _, _ => none

/-- The verb registry built by `create_ui` (src/main.rs:131-214): name to
`(requires_positions, action)`. -/
def vipVerbs (t : Key) : Option (Bool × VerbHandler) :=
  if t = chK 's' then some (true, sVerb)
  else if t = shK '+' then some (false, zoomInVerb)
  else if t = chK '-' then some (false, zoomOutVerb)
  else if t = chK ':' then some (false, colonVerb)
  else if t = chK 'i' then some (false, iVerb)
  else if t = chK 'v' then some (false, vVerb)
  else if t = chK 'V' then some (false, capVVerb)
  else if t = chK 'H' then some (false, panVerb (-1) 0)
  else if t = chK 'J' then some (false, panVerb 0 1)
  else if t = chK 'K' then some (false, panVerb 0 (-1))
  else if t = chK 'L' then some (false, panVerb 1 0)
  else if t = chK '_' then some (true, underscoreVerb)
  else if t = escK then some (false, escVerb)
  else none

/-- The object registry built by `create_ui` (src/main.rs:117-128): the five
motions `h j k l .` with their displacement pairs. -/
def vipObjects (t : Key) : Option ObjHandler :=
  if t = chK 'h' then some (motionObject (-1) 0)
  else if t = chK 'j' then some (motionObject 0 1)
  else if t = chK 'k' then some (motionObject 0 (-1))
  else if t = chK 'l' then some (motionObject 1 0)
  else if t = chK '.' then some (motionObject 0 0)
  else none

/-- The command registry built by `create_ui` (src/main.rs:190-210). -/
def vipCommands (name : String) : Option CmdHandler :=
  if name = "q" then some quitCommand
  else if name = "quit" then some quitCommand
  else if name = "imap" then some imapCommand
  else none

/-- The palette installed in `main` (src/main.rs:308-311). -/
def vipPalette : List (Key × Color) :=
  [(chK 'a', (255, 0, 0)), (chK 'z', (0, 255, 0)), (chK 'e', (0, 0, 255))]

/-- Modelled from the spec: whitespace tokenization of a completed Command-mode
line into words (section 4.5 step 2). -/
def wordsAux : List Char → List Char → List String
  | [], [] => []
  | [], acc => [String.mk acc]
  | ' ' :: rest, [] => wordsAux rest []
  | ' ' :: rest, acc => String.mk acc :: wordsAux rest []
  | c :: rest, acc => wordsAux rest (acc ++ [c])

/-- Modelled from the spec: tokenize the Command-mode buffer by whitespace. -/
def tokenizeLine (s : String) : List String :=
  wordsAux s.toList []

/-- Modelled from the spec: dispatch of one already-expanded key token through
steps 2-5 of the per-key algorithm (section 4.5), against the registries built
by `create_ui`.  The global Escape binding is handled first in every mode: it
fires the registered `<Esc>` verb (which clears the free-form selection),
aborts any command line or pending verb, and returns the mode to Normal
without altering cursor or anchor (section 4.5 step 5).  A `none` result
models a Rust panic inside a handler. -/
def dispatchResolved (ui : Ui) (s : UiState) (t : Key) : Option (Ui × UiState) :=
  if t = escK then
    match vipVerbs t with
    | some (_, act) =>
        (act ui s none).map fun r =>
          ({ r.1 with mode := Mode.Normal, buffer := "", pending := none }, r.2)
    | none => some ({ ui with mode := Mode.Normal, buffer := "", pending := none }, s)
  else
    match ui.mode with
    | Mode.Command =>
        if t = enterK then
          match tokenizeLine ui.buffer with
          | [] => some ({ ui with buffer := "", mode := Mode.Normal }, s)
          | name :: args =>
              match vipCommands name with
              | none => some ({ ui with buffer := "", mode := Mode.Normal }, s)
              | some cmd =>
                  (cmd ui s args).map fun r =>
                    ({ r.1 with buffer := "", mode := Mode.Normal }, r.2)
        else
          match t.base with
          | BaseKey.ch c => some ({ ui with buffer := ui.buffer.push c }, s)
          | _ => some (ui, s)
    | Mode.Insertion =>
        match vipVerbs t with
        | some (_, act) => act ui s none
        | none => some (ui, editCallback ui s t)
    | Mode.Normal | Mode.Visual =>
        match vipVerbs t with
        | some (false, act) =>
            (act ui s none).map fun r => ({ r.1 with pending := none }, r.2)
        | some (true, _) => some ({ ui with pending := some t }, s)
        | none =>
            match vipObjects t with
            | some obj =>
                match obj ui s [] with
                | (u1, s1, ps) =>
                    match ui.pending with
                    | some vk =>
                        match vipVerbs vk with
                        | some (_, act) =>
                            (act u1 s1 (some ps)).map fun r =>
                              ({ r.1 with pending := none }, r.2)
                        | none => some ({ u1 with pending := none }, s1)
                    | none => some (u1, s1)
            | none => some ({ ui with pending := none }, s)

/-- Modelled from the spec: repeated binding resolution of one incoming token
against the current mode, bounded by the recursion guard (section 4.3, depth
32); on exhaustion the remaining expansion is dropped (`RemapCycle` is a
recoverable no-op). -/
def expandToken (bs : Bindings) (m : Mode) : ℕ → Key → List Key
  | 0, _ => []
  | d + 1, t =>
      match resolveB bs m t with
      | none => [t]
      | some ts => ts.foldr (fun tk acc => expandToken bs m d tk ++ acc) []

/-- Modelled from the spec: process a sequence of already-expanded tokens in
order through `dispatchResolved` (section 4.5 step 1). -/
def runTokens : Ui → UiState → List Key → Option (Ui × UiState)
  | ui, s, [] => some (ui, s)
  | ui, s, t :: ts =>
      match dispatchResolved ui s t with
      | none => none
      | some r => runTokens r.1 r.2 ts

/-- Modelled from the spec: dispatch of one incoming key token, first expanded
through the binding table against the current mode, then fed token by token
through steps 2-5 (section 4.5 step 1). -/
def dispatchKey (ui : Ui) (s : UiState) (t : Key) : Option (Ui × UiState) :=
  runTokens ui s (expandToken ui.bindings ui.mode 32 t)

/-- Modelled from the spec: drain a list of pending key events in arrival
order (section 5). -/
def processKeys : Ui → UiState → List Key → Option (Ui × UiState)
  | ui, s, [] => some (ui, s)
  | ui, s, t :: ts =>
      match dispatchKey ui s t with
      | none => none
      | some r => processKeys r.1 r.2 ts

/-- Modelled from the spec: the `input` entry point (section 6); reports
`false` when a close request was issued by a handler before this call. -/
def uiInput (ui : Ui) (s : UiState) (ks : List Key) : Option (Bool × Ui × UiState) :=
  if ui.closed then some (false, ui, s)
  else (processKeys ui s ks).map fun r => (true, r.1, r.2)

/-- In a mode other than Insertion no binding of `create_ui` fires. -/
theorem resolveB_vip_not_insertion (m : Mode) (t : Key) (hm : m ≠ Mode.Insertion) :
    resolveB vipBindings m t = none := by
  cases m
  · rfl
  · exact absurd rfl hm
  · rfl
  · rfl

/-- The Escape token is not a trigger of any binding of `create_ui`. -/
theorem resolveB_vip_esc (m : Mode) : resolveB vipBindings m escK = none := by
  cases m <;> rfl

/-- The Enter token is not a trigger of any binding of `create_ui`. -/
theorem resolveB_vip_enter (m : Mode) : resolveB vipBindings m enterK = none := by
  cases m <;> rfl

/-- A token with no binding in the current mode is dispatched as itself. -/
theorem dispatchKey_unbound (ui : Ui) (s : UiState) (t : Key)
    (h : resolveB ui.bindings ui.mode t = none) :
    dispatchKey ui s t = dispatchResolved ui s t := by
  unfold dispatchKey
  rw [show (32 : ℕ) = 31 + 1 from rfl]
  rw [show expandToken ui.bindings ui.mode (31 + 1) t =
      (match resolveB ui.bindings ui.mode t with
       | none => [t]
       | some ts => ts.foldr (fun tk acc => expandToken ui.bindings ui.mode 31 tk ++ acc) [])
    from rfl]
  rw [h]
  show runTokens ui s [t] = dispatchResolved ui s t
  unfold runTokens
  cases hd : dispatchResolved ui s t
  · rfl
  · rfl

/-- A concrete 16x16 all-black canvas, matching the `Canvas::new(16, 16)`
pattern created in `main` (src/main.rs:295-300). -/
def canvasA : Canvas := ⟨16, 16, fun _ => (0, 0, 0)⟩

/-- A concrete application state mirroring the `UiState` literal built in
`main` (src/main.rs:313-323). -/
def stA : UiState :=
  { palette := vipPalette, must_resize := false, scale := (1 / 800, 1 / 600),
    zoom := 1, center := (-8, -8), canvas := canvasA,
    visual_type := VisualType.Square, window_size := (800, 600), selection := ∅ }

/-- A concrete engine state in Normal mode with the `create_ui` bindings. -/
def uiA : Ui :=
  { mode := Mode.Normal, cursor := (3, 4), anchor := none, buffer := "",
    pending := none, closed := false, bindings := vipBindings }

/-- C8: Dispatching the global Escape binding in any mode clears the free-form
selection and returns the mode to Normal, leaving the cursor, the anchor and
the canvas contents unchanged. -/
theorem escape_clears_selection (ui : Ui) (s : UiState) (hb : ui.bindings = vipBindings) :
    ∃ u' s', dispatchKey ui s escK = some (u', s') ∧
      u'.mode = Mode.Normal ∧ u'.cursor = ui.cursor ∧ u'.anchor = ui.anchor ∧
      s'.selection = ∅ ∧ s'.canvas = s.canvas := by
  rw [dispatchKey_unbound ui s escK (by rw [hb]; exact resolveB_vip_esc ui.mode)]
  exact ⟨{ ui with mode := Mode.Normal, buffer := "", pending := none },
         { s with selection := ∅ }, rfl, rfl, rfl, rfl, rfl, rfl⟩

/-- Closed witness for `escape_clears_selection` in Visual mode with a stale
selection. -/
theorem escape_clears_selection_witness :
    ({ uiA with mode := Mode.Visual, anchor := some (1, 1) } : Ui).bindings = vipBindings ∧
    ∃ u' s',
      dispatchKey { uiA with mode := Mode.Visual, anchor := some (1, 1) }
        { stA with selection := {(2, 2)} } escK = some (u', s') ∧
      u'.mode = Mode.Normal ∧
      u'.cursor = ({ uiA with mode := Mode.Visual, anchor := some (1, 1) } : Ui).cursor ∧
      u'.anchor = ({ uiA with mode := Mode.Visual, anchor := some (1, 1) } : Ui).anchor ∧
      s'.selection = ∅ ∧ s'.canvas = ({ stA with selection := {(2, 2)} } : UiState).canvas :=
  ⟨rfl, escape_clears_selection _ _ rfl⟩

/-- C9: Completing the Command-mode line "quit" (or "q") with Enter issues the
close request, and the next call to the `input` entry point reports closed. -/
theorem quit_command_closes (ui : Ui) (s : UiState) (hb : ui.bindings = vipBindings)
    (hm : ui.mode = Mode.Command) (hbuf : ui.buffer = "quit" ∨ ui.buffer = "q") :
    ∃ u' s', dispatchKey ui s enterK = some (u', s') ∧
      u'.closed = true ∧ ∀ ks, uiInput u' s' ks = some (false, u', s') := by
  obtain ⟨mo, cur, an, buf, pen, cl, bs⟩ := ui
  replace hm : mo = Mode.Command := hm
  replace hb : bs = vipBindings := hb
  replace hbuf : buf = "quit" ∨ buf = "q" := hbuf
  subst hm
  subst hb
  rw [dispatchKey_unbound _ s enterK (resolveB_vip_enter _)]
  rcases hbuf with h | h <;> subst h <;>
    exact ⟨_, _, rfl, rfl, fun ks => rfl⟩

/-- Closed witness for `quit_command_closes` on a Command-mode buffer "quit". -/
theorem quit_command_closes_witness :
    ({ uiA with mode := Mode.Command, buffer := "quit" } : Ui).bindings = vipBindings ∧
    ({ uiA with mode := Mode.Command, buffer := "quit" } : Ui).mode = Mode.Command ∧
    (({ uiA with mode := Mode.Command, buffer := "quit" } : Ui).buffer = "quit" ∨
      ({ uiA with mode := Mode.Command, buffer := "quit" } : Ui).buffer = "q") ∧
    ∃ u' s',
      dispatchKey { uiA with mode := Mode.Command, buffer := "quit" } stA enterK =
        some (u', s') ∧
      u'.closed = true ∧ ∀ ks, uiInput u' s' ks = some (false, u', s') :=
  ⟨rfl, rfl, Or.inl rfl, quit_command_closes _ _ rfl rfl (Or.inl rfl)⟩

/-- C7 failing input: completing the Command-mode line "imap" (no arguments)
with Enter reaches the unchecked `args[0]` indexing in the `imap` command
handler (src/main.rs:208-210) and panics; the dispatch is modelled as `none`.
This contradicts the claim (and spec section 7) that no condition inside the
dispatch loop terminates the process. -/
theorem imap_without_args_panics :
    dispatchKey { uiA with mode := Mode.Command, buffer := "imap" } stA enterK = none := by
  rfl

/-- C4: Dispatching the `i` verb (it fires in every mode except Command, where
keys go to the line buffer) always leaves the engine in Insertion mode; from
Visual mode the free-form selection becomes exactly the selection-geometry
output for the current policy on the anchor/cursor rectangle, and from any
other mode the selection is left unchanged. -/
theorem insert_verb_spec (ui : Ui) (s : UiState)
    (hb : ui.bindings = vipBindings) (hm : ui.mode ≠ Mode.Command) :
    ∃ u' s', dispatchKey ui s (chK 'i') = some (u', s') ∧
      u'.mode = Mode.Insertion ∧
      (ui.mode = Mode.Visual →
        s'.selection = s.visual_type.select_pixels ui.get_selection.1 ui.get_selection.2) ∧
      (ui.mode ≠ Mode.Visual → s'.selection = s.selection) := by
  obtain ⟨mo, cur, an, buf, pen, cl, bs⟩ := ui
  replace hb : bs = vipBindings := hb
  subst hb
  cases mo
  · rw [dispatchKey_unbound _ _ _
      (resolveB_vip_not_insertion Mode.Normal (chK 'i') (by decide))]
    exact ⟨_, _, rfl, rfl, fun h => Mode.noConfusion h, fun _ => rfl⟩
  · rw [dispatchKey_unbound _ _ _
      (show resolveB vipBindings Mode.Insertion (chK 'i') = none from rfl)]
    exact ⟨_, _, rfl, rfl, fun h => Mode.noConfusion h, fun _ => rfl⟩
  · rw [dispatchKey_unbound _ _ _
      (resolveB_vip_not_insertion Mode.Visual (chK 'i') (by decide))]
    exact ⟨_, _, rfl, rfl, fun _ => rfl, fun h => absurd rfl h⟩
  · exact absurd rfl hm

/-- Closed witness for `insert_verb_spec` from Visual mode with Square policy
and anchor (1,1). -/
theorem insert_verb_spec_witness :
    ({ uiA with mode := Mode.Visual, anchor := some (1, 1) } : Ui).bindings = vipBindings ∧
    ({ uiA with mode := Mode.Visual, anchor := some (1, 1) } : Ui).mode ≠ Mode.Command ∧
    ∃ u' s',
      dispatchKey { uiA with mode := Mode.Visual, anchor := some (1, 1) } stA (chK 'i') =
        some (u', s') ∧
      u'.mode = Mode.Insertion ∧
      (({ uiA with mode := Mode.Visual, anchor := some (1, 1) } : Ui).mode = Mode.Visual →
        s'.selection = stA.visual_type.select_pixels
          ({ uiA with mode := Mode.Visual, anchor := some (1, 1) } : Ui).get_selection.1
          ({ uiA with mode := Mode.Visual, anchor := some (1, 1) } : Ui).get_selection.2) ∧
      (({ uiA with mode := Mode.Visual, anchor := some (1, 1) } : Ui).mode ≠ Mode.Visual →
        s'.selection = stA.selection) :=
  ⟨rfl, by decide, insert_verb_spec _ _ rfl (by decide)⟩

/-- C6: In Insertion mode a token that is not a bound verb (and has no binding
expansion) goes to the edit callback: with a palette entry it paints the cursor
pixel when the free-form selection is empty and every selected coordinate
otherwise; with no palette entry the state is unchanged. -/
theorem insertion_edit_spec (ui : Ui) (s : UiState) (t : Key)
    (hb : ui.bindings = vipBindings)
    (hm : ui.mode = Mode.Insertion)
    (hr : resolveB vipBindings Mode.Insertion t = none)
    (hv : vipVerbs t = none) :
    ∃ s', dispatchKey ui s t = some (ui, s') ∧
      (paletteGet s.palette t = none → s' = s) ∧
      (∀ col, paletteGet s.palette t = some col →
        s'.selection = s.selection ∧
        ∀ p, s'.canvas.pix p =
          if (s.selection = ∅ ∧ p = ui.cursor) ∨ p ∈ s.selection then col
          else s.canvas.pix p) := by
  have hne : t ≠ escK := by
    intro h
    subst h
    exact Option.noConfusion ((show vipVerbs escK = some (false, escVerb) from rfl).symm.trans hv)
  rw [dispatchKey_unbound ui s t (by rw [hb, hm]; exact hr)]
  have step : dispatchResolved ui s t = some (ui, editCallback ui s t) := by
    unfold dispatchResolved
    rw [if_neg hne, hm, hv]
  rw [step]
  refine ⟨_, rfl, ?_, ?_⟩
  · intro hp
    unfold editCallback
    rw [hp]
  · intro col hp
    have hedit : editCallback ui s t =
        if s.selection = ∅ then
          { s with canvas := s.canvas.set_pixel_color ui.cursor.1 ui.cursor.2 col }
        else
          { s with canvas :=
              { s.canvas with
                pix := fun p => if p ∈ s.selection then col else s.canvas.pix p } } := by
      unfold editCallback
      rw [hp]
    rw [hedit]
    by_cases hsel : s.selection = ∅
    · rw [if_pos hsel]
      refine ⟨rfl, fun p => ?_⟩
      show (if p = (ui.cursor.1, ui.cursor.2) then col else s.canvas.pix p) = _
      by_cases hp' : p = ui.cursor <;> simp [hp', hsel]
    · rw [if_neg hsel]
      refine ⟨rfl, fun p => ?_⟩
      show (if p ∈ s.selection then col else s.canvas.pix p) = _
      by_cases hp' : p ∈ s.selection <;> simp [hp', hsel]

/-- Closed witness for `insertion_edit_spec` on the palette key `a` with an
empty selection. -/
theorem insertion_edit_spec_witness :
    ({ uiA with mode := Mode.Insertion } : Ui).bindings = vipBindings ∧
    ({ uiA with mode := Mode.Insertion } : Ui).mode = Mode.Insertion ∧
    resolveB vipBindings Mode.Insertion (chK 'a') = none ∧
    vipVerbs (chK 'a') = none ∧
    ∃ s', dispatchKey { uiA with mode := Mode.Insertion } stA (chK 'a') =
        some ({ uiA with mode := Mode.Insertion }, s') ∧
      (paletteGet stA.palette (chK 'a') = none → s' = stA) ∧
      (∀ col, paletteGet stA.palette (chK 'a') = some col →
        s'.selection = stA.selection ∧
        ∀ p, s'.canvas.pix p =
          if (stA.selection = ∅ ∧ p = ({ uiA with mode := Mode.Insertion } : Ui).cursor) ∨
              p ∈ stA.selection then col
          else stA.canvas.pix p) :=
  ⟨rfl, rfl, rfl, rfl, insertion_edit_spec _ _ _ rfl rfl rfl rfl⟩

/-- The traversal set built by a motion consists of exactly the start and end
cursor positions. -/
theorem insertPos_two_mem (c0 c1 p : ℕ × ℕ) :
    p ∈ insertPos c1 (insertPos c0 []) ↔ p = c0 ∨ p = c1 := by
  have h0 : insertPos c0 [] = [c0] := rfl
  rw [h0]
  unfold insertPos
  by_cases hc : c1 ∈ [c0]
  · rw [if_pos hc]
    rw [List.mem_singleton] at hc
    subst hc
    simp
  · rw [if_neg hc]
    simp [List.mem_cons]

/-- C3: A verb registered with requires_positions = true dispatched in Normal
mode only records itself as pending (cursor, canvas and the rest of the state
are untouched); followed by a motion key it fires its action with a traversal
set holding exactly the cursor positions before and after the motion. -/
theorem pending_verb_spec (ui : Ui) (s : UiState) (k m : Key) (act : VerbHandler) (dx dy : ℤ)
    (hb : ui.bindings = vipBindings)
    (hm : ui.mode = Mode.Normal)
    (hp : ui.pending = none)
    (hk : vipVerbs k = some (true, act))
    (hmv : vipVerbs m = none)
    (hmo : vipObjects m = some (motionObject dx dy)) :
    dispatchKey ui s k = some ({ ui with pending := some k }, s) ∧
    ∃ u1 ps,
      processKeys ui s [k, m] =
        (act u1 s (some ps)).map (fun r => ({ r.1 with pending := none }, r.2)) ∧
      u1.cursor = (wrapCoord ui.cursor.1 dx s.canvas.w, wrapCoord ui.cursor.2 dy s.canvas.h) ∧
      (∀ p, p ∈ ps ↔ p = ui.cursor ∨ p = u1.cursor) := by
  have hkne : k ≠ escK := by
    intro h
    subst h
    have h2 : ((false, escVerb) : Bool × VerbHandler) = (true, act) :=
      Option.some.inj ((show vipVerbs escK = some (false, escVerb) from rfl).symm.trans hk)
    exact Bool.noConfusion (congrArg Prod.fst h2)
  have hmne : m ≠ escK := by
    intro h
    subst h
    exact Option.noConfusion ((show vipObjects escK = none from rfl).symm.trans hmo)
  obtain ⟨mo, cur, an, buf, pen, cl, bs⟩ := ui
  replace hb : bs = vipBindings := hb
  replace hm : mo = Mode.Normal := hm
  replace hp : pen = none := hp
  subst hb
  subst hm
  subst hp
  have step1 : dispatchKey ⟨Mode.Normal, cur, an, buf, none, cl, vipBindings⟩ s k =
      some (⟨Mode.Normal, cur, an, buf, some k, cl, vipBindings⟩, s) := by
    rw [dispatchKey_unbound _ _ _ (resolveB_vip_not_insertion Mode.Normal k (by decide))]
    unfold dispatchResolved
    rw [if_neg hkne]
    simp only [hk]
  refine ⟨step1, ?_⟩
  refine ⟨⟨Mode.Normal, (wrapCoord cur.1 dx s.canvas.w, wrapCoord cur.2 dy s.canvas.h),
          an, buf, some k, cl, vipBindings⟩,
        insertPos (wrapCoord cur.1 dx s.canvas.w, wrapCoord cur.2 dy s.canvas.h)
          (insertPos cur []), ?_, rfl, ?_⟩
  · have step2 : dispatchKey ⟨Mode.Normal, cur, an, buf, some k, cl, vipBindings⟩ s m =
        (act ⟨Mode.Normal, (wrapCoord cur.1 dx s.canvas.w, wrapCoord cur.2 dy s.canvas.h),
              an, buf, some k, cl, vipBindings⟩ s
          (some (insertPos (wrapCoord cur.1 dx s.canvas.w, wrapCoord cur.2 dy s.canvas.h)
            (insertPos cur [])))).map (fun r => ({ r.1 with pending := none }, r.2)) := by
      rw [dispatchKey_unbound _ _ _ (resolveB_vip_not_insertion Mode.Normal m (by decide))]
      unfold dispatchResolved
      rw [if_neg hmne]
      simp only [hmv, hmo, hk]
      rfl
    show processKeys _ s [k, m] = _
    unfold processKeys
    rw [step1]
    show processKeys _ s [m] = _
    unfold processKeys
    rw [step2]
    cases hres : (act ⟨Mode.Normal, (wrapCoord cur.1 dx s.canvas.w, wrapCoord cur.2 dy s.canvas.h),
          an, buf, some k, cl, vipBindings⟩ s
        (some (insertPos (wrapCoord cur.1 dx s.canvas.w, wrapCoord cur.2 dy s.canvas.h)
          (insertPos cur [])))).map (fun r => ({ r.1 with pending := none }, r.2)) with
    | none => rfl
    | some r => rfl
  · intro p
    exact insertPos_two_mem cur _ p

/-- Closed witness for `pending_verb_spec`: the "s" verb followed by the "h"
motion from Normal mode. -/
theorem pending_verb_spec_witness :
    uiA.bindings = vipBindings ∧ uiA.mode = Mode.Normal ∧ uiA.pending = none ∧
    vipVerbs (chK 's') = some (true, sVerb) ∧
    vipVerbs (chK 'h') = none ∧
    vipObjects (chK 'h') = some (motionObject (-1) 0) ∧
    (dispatchKey uiA stA (chK 's') = some ({ uiA with pending := some (chK 's') }, stA) ∧
    ∃ u1 ps,
      processKeys uiA stA [chK 's', chK 'h'] =
        (sVerb u1 stA (some ps)).map (fun r => ({ r.1 with pending := none }, r.2)) ∧
      u1.cursor = (wrapCoord uiA.cursor.1 (-1) stA.canvas.w,
                   wrapCoord uiA.cursor.2 0 stA.canvas.h) ∧
      (∀ p, p ∈ ps ↔ p = uiA.cursor ∨ p = u1.cursor)) :=
  ⟨rfl, rfl, rfl, rfl, rfl, rfl,
    pending_verb_spec uiA stA (chK 's') (chK 'h') sVerb (-1) 0 rfl rfl rfl rfl rfl rfl⟩

/-- Shifting inside an `emod` residue leaves the residue class unchanged. -/
theorem emod_shift (a b w : ℤ) : (a % w + b) % w = (a + b) % w := by
  conv_rhs => rw [Int.add_emod]
  rw [Int.add_emod (a % w) b, Int.emod_emod_of_dvd a dvd_rfl]

/-- A wrapped coordinate is a valid index of a nonempty axis. -/
theorem wrapCoord_lt (a : ℕ) (d : ℤ) (w : ℕ) (hw : 0 < w) : wrapCoord a d w < w := by
  unfold wrapCoord
  have hw' : (0 : ℤ) < (w : ℤ) := by exact_mod_cast hw
  have h1 := Int.emod_lt_of_pos ((a : ℤ) + d) hw'
  have h2 := Int.emod_nonneg ((a : ℤ) + d) hw'.ne'
  omega

/-- The cursor coordinate after `k` wrapped displacements by `d` on an axis of
width `w`. -/
def wrapN (a k : ℕ) (d : ℤ) (w : ℕ) : ℕ :=
  ((((a : ℤ) + (k : ℤ) * d) % (w : ℤ)) : ℤ).toNat

/-- Zero wrapped displacements leave an in-range coordinate unchanged. -/
theorem wrapN_zero (a : ℕ) (d : ℤ) (w : ℕ) (ha : a < w) : wrapN a 0 d w = a := by
  unfold wrapN
  rw [Nat.cast_zero, zero_mul, add_zero,
    Int.emod_eq_of_lt (Int.ofNat_nonneg a) (by exact_mod_cast ha)]
  simp

/-- One wrapped step followed by `k` more equals `k + 1` wrapped steps. -/
theorem wrapN_succ (a k : ℕ) (d : ℤ) (w : ℕ) (hw : 0 < w) :
    wrapN (wrapCoord a d w) k d w = wrapN a (k + 1) d w := by
  unfold wrapN wrapCoord
  have hw' : (w : ℤ) ≠ 0 := by exact_mod_cast hw.ne'
  rw [Int.toNat_of_nonneg (Int.emod_nonneg _ hw'), emod_shift]
  have harg : (a : ℤ) + d + (k : ℤ) * d = (a : ℤ) + ((k : ℕ) + 1 : ℕ) * d := by
    push_cast
    ring
  rw [harg]

/-- A full cycle of `w` wrapped displacements by any `d` returns an in-range
coordinate to itself. -/
theorem wrapN_full (a : ℕ) (d : ℤ) (w : ℕ) (ha : a < w) : wrapN a w d w = a := by
  unfold wrapN
  rw [Int.add_mul_emod_self_left,
    Int.emod_eq_of_lt (Int.ofNat_nonneg a) (by exact_mod_cast ha)]
  simp

/-- Displacements by zero never move an in-range coordinate. -/
theorem wrapN_zero_delta (a k w : ℕ) (ha : a < w) : wrapN a k 0 w = a := by
  unfold wrapN
  rw [mul_zero, add_zero,
    Int.emod_eq_of_lt (Int.ofNat_nonneg a) (by exact_mod_cast ha)]
  simp

/-- Dispatching a motion key in Normal mode with no pending verb is plain
wrapped cursor movement. -/
theorem dispatchKey_motion (cur : ℕ × ℕ) (an : Option (ℕ × ℕ)) (buf : String) (cl : Bool)
    (s : UiState) (m : Key) (dx dy : ℤ)
    (hmv : vipVerbs m = none) (hmo : vipObjects m = some (motionObject dx dy)) :
    dispatchKey ⟨Mode.Normal, cur, an, buf, none, cl, vipBindings⟩ s m =
      some (⟨Mode.Normal, (wrapCoord cur.1 dx s.canvas.w, wrapCoord cur.2 dy s.canvas.h),
             an, buf, none, cl, vipBindings⟩, s) := by
  have hmne : m ≠ escK := by
    intro h
    subst h
    exact Option.noConfusion ((show vipObjects escK = none from rfl).symm.trans hmo)
  rw [dispatchKey_unbound _ _ _ (resolveB_vip_not_insertion Mode.Normal m (by decide))]
  unfold dispatchResolved
  rw [if_neg hmne]
  simp only [hmv, hmo]
  rfl

/-- Processing `n` copies of a motion key moves the cursor to its `n`-fold
wrapped displacement and changes nothing else. -/
theorem processKeys_motion_replicate (m : Key) (dx dy : ℤ)
    (hmv : vipVerbs m = none) (hmo : vipObjects m = some (motionObject dx dy))
    (n : ℕ) (cur : ℕ × ℕ) (an : Option (ℕ × ℕ)) (buf : String) (cl : Bool) (s : UiState)
    (hx : cur.1 < s.canvas.w) (hy : cur.2 < s.canvas.h) :
    processKeys ⟨Mode.Normal, cur, an, buf, none, cl, vipBindings⟩ s (List.replicate n m) =
      some (⟨Mode.Normal, (wrapN cur.1 n dx s.canvas.w, wrapN cur.2 n dy s.canvas.h),
             an, buf, none, cl, vipBindings⟩, s) := by
  induction n generalizing cur with
  | zero =>
      rw [List.replicate_zero]
      show some _ = some _
      rw [wrapN_zero _ _ _ hx, wrapN_zero _ _ _ hy]
  | succ n ih =>
      rw [List.replicate_succ]
      unfold processKeys
      rw [dispatchKey_motion cur an buf cl s m dx dy hmv hmo]
      have hw : 0 < s.canvas.w := lt_of_le_of_lt (Nat.zero_le _) hx
      have hh : 0 < s.canvas.h := lt_of_le_of_lt (Nat.zero_le _) hy
      show processKeys ⟨Mode.Normal,
          (wrapCoord cur.1 dx s.canvas.w, wrapCoord cur.2 dy s.canvas.h),
          an, buf, none, cl, vipBindings⟩ s (List.replicate n m) = _
      rw [ih (wrapCoord cur.1 dx s.canvas.w, wrapCoord cur.2 dy s.canvas.h)
        (wrapCoord_lt cur.1 dx s.canvas.w hw) (wrapCoord_lt cur.2 dy s.canvas.h hh)]
      show some _ = some _
      rw [show wrapN (wrapCoord cur.1 dx s.canvas.w) n dx s.canvas.w =
          wrapN cur.1 (n + 1) dx s.canvas.w from wrapN_succ cur.1 n dx s.canvas.w hw]
      rw [show wrapN (wrapCoord cur.2 dy s.canvas.h) n dy s.canvas.h =
          wrapN cur.2 (n + 1) dy s.canvas.h from wrapN_succ cur.2 n dy s.canvas.h hh]

/-- C5: The directional motions wrap modulo the canvas dimensions, so a full
cycle (`w` times `l`, `w` times `h`, `h` times `j`, `h` times `k`) returns the
cursor — and the whole engine and application state — to its origin. -/
theorem motions_wrap_cycle (ui : Ui) (s : UiState)
    (hb : ui.bindings = vipBindings) (hm : ui.mode = Mode.Normal) (hp : ui.pending = none)
    (hx : ui.cursor.1 < s.canvas.w) (hy : ui.cursor.2 < s.canvas.h) :
    processKeys ui s (List.replicate s.canvas.w (chK 'l')) = some (ui, s) ∧
    processKeys ui s (List.replicate s.canvas.w (chK 'h')) = some (ui, s) ∧
    processKeys ui s (List.replicate s.canvas.h (chK 'j')) = some (ui, s) ∧
    processKeys ui s (List.replicate s.canvas.h (chK 'k')) = some (ui, s) := by
  obtain ⟨mo, cur, an, buf, pen, cl, bs⟩ := ui
  replace hb : bs = vipBindings := hb
  replace hm : mo = Mode.Normal := hm
  replace hp : pen = none := hp
  replace hx : cur.1 < s.canvas.w := hx
  replace hy : cur.2 < s.canvas.h := hy
  subst hb
  subst hm
  subst hp
  refine ⟨?_, ?_, ?_, ?_⟩
  · rw [processKeys_motion_replicate (chK 'l') 1 0 rfl rfl s.canvas.w cur an buf cl s hx hy,
      wrapN_full cur.1 1 s.canvas.w hx, wrapN_zero_delta cur.2 s.canvas.w s.canvas.h hy]
  · rw [processKeys_motion_replicate (chK 'h') (-1) 0 rfl rfl s.canvas.w cur an buf cl s hx hy,
      wrapN_full cur.1 (-1) s.canvas.w hx, wrapN_zero_delta cur.2 s.canvas.w s.canvas.h hy]
  · rw [processKeys_motion_replicate (chK 'j') 0 1 rfl rfl s.canvas.h cur an buf cl s hx hy,
      wrapN_zero_delta cur.1 s.canvas.h s.canvas.w hx, wrapN_full cur.2 1 s.canvas.h hy]
  · rw [processKeys_motion_replicate (chK 'k') 0 (-1) rfl rfl s.canvas.h cur an buf cl s hx hy,
      wrapN_zero_delta cur.1 s.canvas.h s.canvas.w hx, wrapN_full cur.2 (-1) s.canvas.h hy]

/-- Closed witness for `motions_wrap_cycle` on the 16x16 canvas with cursor
(3, 4). -/
theorem motions_wrap_cycle_witness :
    uiA.bindings = vipBindings ∧ uiA.mode = Mode.Normal ∧ uiA.pending = none ∧
    uiA.cursor.1 < stA.canvas.w ∧ uiA.cursor.2 < stA.canvas.h ∧
    (processKeys uiA stA (List.replicate stA.canvas.w (chK 'l')) = some (uiA, stA) ∧
     processKeys uiA stA (List.replicate stA.canvas.w (chK 'h')) = some (uiA, stA) ∧
     processKeys uiA stA (List.replicate stA.canvas.h (chK 'j')) = some (uiA, stA) ∧
     processKeys uiA stA (List.replicate stA.canvas.h (chK 'k')) = some (uiA, stA)) :=
  ⟨rfl, rfl, rfl, by decide, by decide,
    motions_wrap_cycle uiA stA rfl rfl rfl (by decide) (by decide)⟩
